import Mathlib

/-!
Verification of the WaniKani-Sentence-Extractor repository.

Strings from the Python source are modelled as `List Char`. Pure helpers
mirror the Python string primitives used by the code:
  - `strip` models `str.strip()` (Unicode whitespace trimmed on both ends;
    Lean's `Char.isWhitespace` covers the whitespace the program meets);
  - `lowerAll` models `str.lower()` (per-character lowering; the strings
    compared after lowering in the source are ASCII commands);
  - `containsSub p s` models the Python containment test `p in s`;
  - `replaceAll p r s` models `s.replace(p, r)`: every left-to-right
    non-overlapping occurrence of a non-empty `p` is replaced by `r`.
-/

namespace WaniKani

/-- Model of `str.strip()`: drop whitespace from both ends. -/
def strip (s : List Char) : List Char :=
  ((s.dropWhile Char.isWhitespace).reverse.dropWhile Char.isWhitespace).reverse

/-- Model of `str.lower()`: lower-case every character. -/
def lowerAll (s : List Char) : List Char := s.map Char.toLower

/-- Model of the Python containment test `p in s`: some suffix of `s`
(including the empty suffix) starts with `p`. -/
def containsSub (p : List Char) : List Char → Bool
  | [] => p.isEmpty
  | c :: t => List.isPrefixOf p (c :: t) || containsSub p t

/-- Fuelled worker for `replaceAll`; structural recursion on the fuel keeps
the function kernel-reducible. With fuel at least the length of the string
it scans left to right, replacing each non-overlapping occurrence. -/
def replaceAllAux (p r : List Char) : Nat → List Char → List Char
  | 0, s => s
  | _ + 1, [] => []
  | fuel + 1, c :: t =>
      if p ≠ [] ∧ List.isPrefixOf p (c :: t) = true then
        r ++ replaceAllAux p r fuel ((c :: t).drop p.length)
      else
        c :: replaceAllAux p r fuel t

/-- Model of Python `s.replace(p, r)` for the use in the source, where the
pattern is guarded to be non-empty: replace every left-to-right
non-overlapping occurrence of `p` in `s` by `r`. -/
def replaceAll (p r s : List Char) : List Char := replaceAllAux p r s.length s

/- ----------------------------------------------------------------------
Card assembly, from `main.py` lines 183-208.
---------------------------------------------------------------------- -/

/-- The replacement text of `main.py` line 186:
`<b><span style="color:red;">target_word</span></b>`. -/
def red_markup (tw : List Char) : List Char :=
  "<b><span style=\"color:red;\">".toList ++ tw ++ "</span></b>".toList

/-- Embedding of `main.py` lines 183-189: when the target word is truthy and
a literal substring of the sentence, `str.replace` substitutes the markup;
otherwise the sentence is kept unmarked. -/
def highlighted_example (jp tw : List Char) : List Char :=
  if tw ≠ [] ∧ containsSub tw jp = true then replaceAll tw (red_markup tw) jp
  else jp

/-- Definition modelled from the claim text (first-occurrence-only
replacement), used to compare the claimed behaviour with the code:
replace only the first occurrence of `p`, leaving the rest of the string
untouched. -/
def replaceFirst (p r : List Char) : List Char → List Char
  | [] => []
  | c :: t =>
      if p ≠ [] ∧ List.isPrefixOf p (c :: t) = true then r ++ (c :: t).drop p.length
      else c :: replaceFirst p r t

/-- The claim's version of the highlighting step: only the first contiguous
occurrence is wrapped in the markup. -/
def highlight_first_spec (jp tw : List Char) : List Char :=
  if tw ≠ [] ∧ containsSub tw jp = true then replaceFirst tw (red_markup tw) jp
  else jp

/- ----------------------------------------------------------------------
Conversation engine, from `wanikani_assistant/ai_agent.py`.

A dialogue turn is a role-tagged string (`{"role": ..., "content": ...}`).
The OpenAI chat call is modelled as an oracle `Nat → List Msg → ModelResp`:
the `Nat` counts the calls made so far (successive calls on the same
history may answer differently), the `List Msg` is the full history sent
as context, and the answer is either the (raw) response content of a
successful call or an exception (`err` covers network/auth failures and
the cases where `_extract_content` fails). Reading a line from stdin is
modelled by consuming the head of a list of input lines; an exhausted
list corresponds to blocking on input (or `EOFError`), so the function
then produces no return value (`none`).
---------------------------------------------------------------------- -/

inductive Role
  | system
  | assistant
  | user
deriving DecidableEq, Repr

structure Msg where
  role : Role
  content : List Char
deriving DecidableEq, Repr

inductive ModelResp
  | ok (content : List Char)
  | err
deriving DecidableEq, Repr

/-- The loop of `start_conversation` is in one of two read states: reading a
normal line at the `You:` prompt, or reading the answer to the
`Type 'retry' or '/skip':` prompt shown after a model-call exception. -/
inductive Mode
  | reading
  | retryPrompt
deriving DecidableEq, Repr

/-- The value of the Python return statement of `start_conversation`: a pair
of an optional string tag and an optional history list. -/
abbrev ConvReturn : Type := Option (List Char) × Option (List Msg)

/-- The nine adjacent string literals of `SYSTEM_PROMPT_BASE`
(`ai_agent.py` lines 15-25); the fourth line is the rule forbidding
paraphrase or substitution of the provided English sentence. -/
def SP_LINE1 : List Char :=
  "You are a helpful, literal Japanese→English mapping assistant.\n\n".toList

def SP_LINE2 : List Char := "RULES (CRITICAL & NON-NEGOTIABLE):\n".toList

def SP_LINE3 : List Char :=
  "- The English sentence provided by the user is the authoritative meaning for this Japanese sentence.\n".toList

def NO_PARAPHRASE_RULE : List Char :=
  "- You MUST NOT paraphrase, rewrite, substitute, or improve the English sentence in any way.\n".toList

def SP_LINE5 : List Char :=
  "- You MUST NOT output any alternative English translation.\n".toList

def SP_LINE6 : List Char :=
  "- Your ONLY task is to explain exactly which Japanese word(s) or phrase(s) correspond to which exact word(s) or phrase(s) in the provided English sentence.\n".toList

def SP_LINE7 : List Char :=
  "- Output a clear, concise mapping list (Japanese token/phrase -> exact substring(s) from the user\x27s English), and a one-line reason for each mapping.\n".toList

def SP_LINE8 : List Char :=
  "- Ask the user to confirm the mapping at the end: \x27Does this mapping match your intention?\x27\n".toList

def SP_LINE9 : List Char :=
  "- Keep output short and literal unless the user explicitly requests more detail.\n".toList

def SYSTEM_PROMPT_BASE : List Char :=
  SP_LINE1 ++ SP_LINE2 ++ SP_LINE3 ++ NO_PARAPHRASE_RULE ++ SP_LINE5
    ++ SP_LINE6 ++ SP_LINE7 ++ SP_LINE8 ++ SP_LINE9

/-- The instruction block appended at the end of the system message
(`ai_agent.py` lines 44-51). -/
def INSTRUCTIONS_FOR_ASSISTANT : List Char :=
  ("INSTRUCTIONS FOR THE ASSISTANT:\n"
    ++ "1) Produce a numbered list of mappings in the exact form:\n"
    ++ "   1) 「<Japanese substring>」 -> \"<exact substring from the provided English>\" — <one-line reason>\n"
    ++ "2) Only include mappings where the Japanese substring actually appears in the JP sentence and the English substring exactly appears in the provided English sentence.\n"
    ++ "3) If a Japanese substring corresponds to multiple words in English, include the exact contiguous substring from the provided English. Never invent words.\n"
    ++ "4) If there is no direct correspondence for a particular Japanese token, explicitly state: \x27No direct English substring; relates to overall meaning.\x27\n"
    ++ "5) End with the single question: \x27Does this mapping match your intention?\x27\n").toList

/-- Embedding of `AIAgent._build_system_message` (`ai_agent.py` lines 37-51):
the base prompt, then the Japanese sentence and the English translation
spliced verbatim, then the instruction block. -/
def build_system_message (jp en : List Char) : List Char :=
  SYSTEM_PROMPT_BASE ++ "\n\n".toList
    ++ "JAPANESE SENTENCE (DO NOT ALTER): ".toList ++ jp ++ "\n".toList
    ++ "ENGLISH SENTENCE (AUTHORITATIVE — DO NOT ALTER): ".toList ++ en ++ "\n\n".toList
    ++ INSTRUCTIONS_FOR_ASSISTANT

/-- The static invitation of `ai_agent.py` line 102, templated from the
sentence and never produced by a model call. -/
def invite_text (sentence : List Char) : List Char :=
  "Let\x27s discuss this sentence: 「".toList ++ sentence
    ++ "」. What would you like to explore first?".toList

/-- The history built at `ai_agent.py` lines 105-108 before the loop starts:
system instruction first, static assistant invitation second. -/
def initial_history (sentence english : List Char) : List Msg :=
  [⟨Role.system, build_system_message sentence english⟩,
   ⟨Role.assistant, invite_text sentence⟩]

/-- Embedding of the interactive `while True` loop of `start_conversation`
(`ai_agent.py` lines 119-154). Each call consumes one line of input.
In `Mode.reading`: an input empty after stripping re-loops; the commands
`/skip`, `/image`, `/anki` (compared after `.strip().lower()`) return
immediately; any other line is appended as a user turn and the model
oracle is consulted on the extended history — an ok answer whose stripped
content is empty re-loops without appending an assistant turn, an ok
answer with content appends the stripped content as an assistant turn,
and an exception moves to `Mode.retryPrompt`. In `Mode.retryPrompt`:
an input whose `.strip().lower()` is `retry` resumes the reading loop on
the same history; anything else returns `(None, None)`. -/
def loop (model : Nat → List Msg → ModelResp) (k : Nat) (h : List Msg)
    (mode : Mode) : List (List Char) → Option ConvReturn
  | [] => none
  | inp :: rest =>
      match mode with
      | Mode.retryPrompt =>
          if lowerAll (strip inp) = "retry".toList then
            loop model k h Mode.reading rest
          else some (none, none)
      | Mode.reading =>
          if strip inp = [] then loop model k h Mode.reading rest
          else if lowerAll (strip inp) = "/skip".toList then some (none, none)
          else if lowerAll (strip inp) = "/image".toList then
            some (some "IMAGE_PROMPT".toList, some h)
          else if lowerAll (strip inp) = "/anki".toList then
            some (some "CREATE_CARD".toList, some h)
          else
            match model k (h ++ [⟨Role.user, strip inp⟩]) with
            | ModelResp.ok content =>
                if strip content = [] then
                  loop model (k + 1) (h ++ [⟨Role.user, strip inp⟩]) Mode.reading rest
                else
                  loop model (k + 1)
                    (h ++ [⟨Role.user, strip inp⟩] ++ [⟨Role.assistant, strip content⟩])
                    Mode.reading rest
            | ModelResp.err =>
                loop model (k + 1) (h ++ [⟨Role.user, strip inp⟩]) Mode.retryPrompt rest

/-- Embedding of `AIAgent.start_conversation` (`ai_agent.py` lines 92-154).
`enabled` is `client is not None`, i.e. whether an OpenAI credential is
configured. The history with the system message and the static invitation
is built first; with no backend the function returns
`(invite, history)` immediately (line 113) without consulting the model
oracle; otherwise the interactive loop runs. -/
def start_conversation (enabled : Bool) (model : Nat → List Msg → ModelResp)
    (sentence english : List Char) (inputs : List (List Char)) : Option ConvReturn :=
  if enabled then loop model 0 (initial_history sentence english) Mode.reading inputs
  else some (some (invite_text sentence), some (initial_history sentence english))

/-- The dispatch of `main.py` lines 113-133 on the value returned by
`start_conversation`: `(None, None)` means no card is created, a
`"IMAGE_PROMPT"` tag enters the image flow, anything else enters the
normal `/anki` flow. -/
inductive FlowPath
  | noCard
  | imageFlow
  | ankiFlow
deriving DecidableEq, Repr

def flow_path (r : ConvReturn) : FlowPath :=
  if r.1 = none ∧ r.2 = none then FlowPath.noCard
  else if r.1 = some "IMAGE_PROMPT".toList then FlowPath.imageFlow
  else FlowPath.ankiFlow

/- ----------------------------------------------------------------------
Card fields and media upload, from `main.py` lines 183-228.
---------------------------------------------------------------------- -/

/-- The eight slots of the note submitted to Anki (`main.py` lines 199-208),
in source order: `Front[ENG]`, `Image`, `Back[SWE]`, `Examples`, `Audio`,
`Example English`, `Audio Example`, `Grammar`. Every slot holds a string
by construction, mirroring that the Python dict binds every key to a
`str` (the defensive `None` sweep of lines 226-228 is a no-op). -/
structure Fields where
  frontEng : List Char
  image : List Char
  backSwe : List Char
  examples : List Char
  audio : List Char
  exampleEnglish : List Char
  audioExample : List Char
  grammar : List Char
deriving DecidableEq, Repr

def STYLE_WRAPPER_START : List Char :=
  "<div style=\"background:black; color:orange;\">".toList

def STYLE_WRAPPER_END : List Char := "</div>".toList

def style_wrap (s : List Char) : List Char :=
  STYLE_WRAPPER_START ++ s ++ STYLE_WRAPPER_END

/-- The `back_swe_value` markup of `main.py` lines 191-194. -/
def orange_markup (tw : List Char) : List Char :=
  "<b><span style=\"color:orange;\">".toList ++ tw ++ "</span></b>".toList

/-- Embedding of the field construction of `main.py` lines 183-208.
`target_word` is `Option` because the image-prompt flow sets it to `None`
(line 126); Python truthiness of `None` and of the empty string coincide,
so both map to the empty list here. The `Image`, `Audio`, `Audio Example`
and `Grammar` slots are initialised to the empty string. -/
def assembleFields (jp : List Char) (target_word : Option (List Char))
    (english_word eng_translation : List Char) : Fields :=
  { frontEng := style_wrap english_word
    image := []
    backSwe := style_wrap
      (if target_word.getD [] ≠ [] then orange_markup (target_word.getD []) else [])
    examples := style_wrap (highlighted_example jp (target_word.getD []))
    audio := []
    exampleEnglish := style_wrap eng_translation
    audioExample := []
    grammar := [] }

/-- The inline image reference written into the `Image` slot after a
successful upload (`main.py` line 217). -/
def img_tag (filename : List Char) : List Char :=
  "<img src=\"".toList ++ filename ++ "\">".toList

/-- The inline sound marker written into the `Audio Example` slot after a
successful upload (`main.py` line 223). -/
def sound_tag (filename : List Char) : List Char :=
  "[sound:".toList ++ filename ++ "]".toList

/-- Embedding of the media-upload block of `main.py` lines 213-223.
`imageF`/`audioF` are the optional media filenames produced by the
providers; `ok` is the oracle for `store_media_file` success, keyed by
filename. The result pairs the final fields with the list of filenames
for which an upload call was attempted, in order. -/
def media_upload (fields : Fields) (imageF audioF : Option (List Char))
    (ok : List Char → Bool) : Fields × List (List Char) :=
  let step1 : Fields × List (List Char) :=
    match imageF with
    | none => (fields, [])
    | some img =>
        (if ok img then { fields with image := img_tag img } else fields, [img])
  let step2 : Fields × List (List Char) :=
    match audioF with
    | none => (step1.1, [])
    | some aud =>
        (if ok aud then { step1.1 with audioExample := sound_tag aud } else step1.1,
         [aud])
  (step2.1, step1.2 ++ step2.2)

/- ----------------------------------------------------------------------
Media providers: `wanikani_assistant/audio_generator.py` and
`wanikani_assistant/image_fetcher.py`.
---------------------------------------------------------------------- -/

/-- Decimal digits of a natural number, modelling Python `str(n)` for a
non-negative `n` (fuelled, kernel-reducible). -/
def natToDecAux : Nat → Nat → List Char → List Char
  | 0, _, acc => acc
  | fuel + 1, n, acc =>
      if n < 10 then Char.ofNat (48 + n) :: acc
      else natToDecAux fuel (n / 10) (Char.ofNat (48 + n % 10) :: acc)

def natToDec (n : Nat) : List Char := natToDecAux (n + 1) n []

/-- Embedding of `AudioGenerator._safe_filename` (`audio_generator.py`
lines 42-44): `audio_` plus the first 12 characters of
`str(abs(hash(sentence)))` plus `.mp3`. Python's `hash` is modelled as an
oracle `List Char → Int`. -/
def safe_filename (hashFn : List Char → Int) (sentence : List Char) : List Char :=
  "audio_".toList ++ (natToDec (hashFn sentence).natAbs).take 12 ++ ".mp3".toList

/-- Availability and success of the two TTS backends for one call:
`openai_available` is `client is not None`, `openai_ok` is whether the
OpenAI TTS request succeeds, `gtts_available` is whether importing `gtts`
succeeded, `gtts_ok` is whether `gTTS(...).save` succeeds. -/
structure AudioEnv where
  openai_available : Bool
  openai_ok : Bool
  gtts_available : Bool
  gtts_ok : Bool

/-- Embedding of `AudioGenerator.generate_audio` (`audio_generator.py`
lines 46-82). `fs` is the set of filenames already present in the media
folder (the `os.path.exists` check). The result is the returned filename
(or `None`), the media folder afterwards, and the number of synthesis
attempts performed (0 when the existing file is reused). -/
def generate_audio (hashFn : List Char → Int) (env : AudioEnv)
    (fs : List (List Char)) (sentence : List Char) :
    Option (List Char) × List (List Char) × Nat :=
  let filename := safe_filename hashFn sentence
  if filename ∈ fs then (some filename, fs, 0)
  else if env.openai_available then
    if env.openai_ok then (some filename, filename :: fs, 1)
    else if env.gtts_available then
      if env.gtts_ok then (some filename, filename :: fs, 2) else (none, fs, 2)
    else (none, fs, 1)
  else if env.gtts_available then
    if env.gtts_ok then (some filename, filename :: fs, 1) else (none, fs, 1)
  else (none, fs, 0)

/-- Embedding of `ImageFetcher._download_image`'s filename choice
(`image_fetcher.py` lines 50-51): `img_` plus the first 12 characters of
`hashlib.sha1(url).hexdigest()` plus `.png`; the hex digest is modelled
as an oracle `List Char → List Char`. -/
def img_filename (sha1Fn : List Char → List Char) (url : List Char) : List Char :=
  "img_".toList ++ (sha1Fn url).take 12 ++ ".png".toList

/-- The candidate iteration of `ImageFetcher.search_and_download`
(`image_fetcher.py` lines 61-68) over the search items, each carrying an
optional `link`. A falsy link (missing key or empty string) is skipped
with no download; otherwise a download is attempted (counted), and the
first link that downloads and decodes returns `(link, filename)`.
The result pairs the returned value with the number of download attempts.
Note the function takes no record of previously produced local assets:
`_download_image` performs the request unconditionally. -/
def sdLoop (sha1Fn : List Char → List Char) (downloadOk : List Char → Bool) :
    List (Option (List Char)) → Option (List Char × List Char) × Nat
  | [] => (none, 0)
  | none :: rest => sdLoop sha1Fn downloadOk rest
  | some link :: rest =>
      if link = [] then sdLoop sha1Fn downloadOk rest
      else if downloadOk link then (some (link, img_filename sha1Fn link), 1)
      else ((sdLoop sha1Fn downloadOk rest).1, (sdLoop sha1Fn downloadOk rest).2 + 1)

/-- Embedding of `ImageFetcher.search_and_download` (`image_fetcher.py`
lines 58-71): when the search request itself fails (`searchOk = false`)
the exception handler returns `(None, None)` with no download; otherwise
the candidate list for the query is scanned. -/
def search_and_download (sha1Fn : List Char → List Char)
    (searchFn : List Char → List (Option (List Char)))
    (downloadOk : List Char → Bool) (searchOk : Bool) (query : List Char) :
    Option (List Char × List Char) × Nat :=
  if searchOk then sdLoop sha1Fn downloadOk (searchFn query) else (none, 0)

/- ----------------------------------------------------------------------
Helper lemmas about the string primitives.
---------------------------------------------------------------------- -/

theorem isPrefixOf_append_self (l t : List Char) : List.isPrefixOf l (l ++ t) = true := by
  induction l with
  | nil => simp [List.isPrefixOf]
  | cons c cs ih => simp [List.isPrefixOf, ih]

theorem containsSub_parts (a p b : List Char) : containsSub p (a ++ (p ++ b)) = true := by
  induction a with
  | nil =>
      cases p with
      | nil => cases b <;> simp [containsSub, List.isPrefixOf]
      | cons c p2 => simp [containsSub, isPrefixOf_append_self]
  | cons x a2 ih => simp [containsSub, ih]

theorem containsSub_of_eq (p a b : List Char) {s : List Char}
    (h : s = a ++ (p ++ b)) : containsSub p s = true := by
  subst h; exact containsSub_parts a p b

theorem replaceAllAux_nil (p r : List Char) (fuel : Nat) :
    replaceAllAux p r fuel [] = [] := by
  cases fuel <;> rfl

theorem replaceAllAux_fuel (p r : List Char) :
    ∀ (fuel1 : Nat) (s : List Char) (fuel2 : Nat),
      s.length ≤ fuel1 → s.length ≤ fuel2 →
      replaceAllAux p r fuel1 s = replaceAllAux p r fuel2 s := by
  intro fuel1
  induction fuel1 with
  | zero =>
      intro s fuel2 h1 _
      have hs : s = [] := List.eq_nil_of_length_eq_zero (Nat.le_zero.mp h1)
      subst hs
      simp [replaceAllAux_nil]
  | succ fuel ih =>
      intro s fuel2 h1 h2
      cases s with
      | nil => simp [replaceAllAux_nil]
      | cons c t =>
          cases fuel2 with
          | zero => simp at h2
          | succ fuel2 =>
              simp only [replaceAllAux]
              by_cases hc : p ≠ [] ∧ List.isPrefixOf p (c :: t) = true
              · simp only [if_pos hc]
                have hplen : 1 ≤ p.length := by
                  cases p with
                  | nil => exact absurd rfl hc.1
                  | cons _ _ => simp
                have hd : ((c :: t).drop p.length).length ≤ fuel := by
                  simp only [List.length_drop, List.length_cons]
                  simp only [List.length_cons] at h1
                  omega
                have hd2 : ((c :: t).drop p.length).length ≤ fuel2 := by
                  simp only [List.length_drop, List.length_cons]
                  simp only [List.length_cons] at h2
                  omega
                rw [ih _ _ hd hd2]
              · simp only [if_neg hc]
                have ht : t.length ≤ fuel := by
                  simp only [List.length_cons] at h1; omega
                have ht2 : t.length ≤ fuel2 := by
                  simp only [List.length_cons] at h2; omega
                rw [ih _ _ ht ht2]

theorem replaceAll_head (p r s : List Char) (hp : p ≠ []) :
    replaceAll p r (p ++ s) = r ++ replaceAll p r s := by
  cases p with
  | nil => exact absurd rfl hp
  | cons c p2 =>
      show replaceAllAux (c :: p2) r ((c :: p2) ++ s).length ((c :: p2) ++ s)
        = r ++ replaceAllAux (c :: p2) r s.length s
      have hlen : ((c :: p2) ++ s).length = (p2 ++ s).length + 1 := by simp
      rw [hlen]
      have hcons : (c :: p2) ++ s = c :: (p2 ++ s) := rfl
      rw [hcons]
      simp only [replaceAllAux]
      rw [if_pos ⟨by simp, isPrefixOf_append_self (c :: p2) s⟩]
      have hdrop : (c :: (p2 ++ s)).drop (c :: p2).length = s := by
        have : (c :: (p2 ++ s)) = (c :: p2) ++ s := rfl
        rw [this]
        exact List.drop_left (c :: p2) s
      rw [hdrop]
      have : replaceAllAux (c :: p2) r (p2 ++ s).length s
          = replaceAllAux (c :: p2) r s.length s := by
        apply replaceAllAux_fuel
        · simp
        · exact Nat.le_refl _
      rw [this]

theorem replaceAllAux_not_contained (p r : List Char) :
    ∀ (fuel : Nat) (s : List Char),
      containsSub p s = false → replaceAllAux p r fuel s = s := by
  intro fuel
  induction fuel with
  | zero => intro s _; rfl
  | succ fuel ih =>
      intro s h
      cases s with
      | nil => rfl
      | cons c t =>
          simp only [containsSub, Bool.or_eq_false_iff] at h
          simp only [replaceAllAux]
          rw [if_neg (by intro hc; rw [h.1] at hc; exact Bool.false_ne_true hc.2)]
          rw [ih t h.2]

theorem replaceAll_not_contained (p r s : List Char)
    (h : containsSub p s = false) : replaceAll p r s = s :=
  replaceAllAux_not_contained p r s.length s h

/- ----------------------------------------------------------------------
Shared lemmas about the conversation loop.
---------------------------------------------------------------------- -/

/-- Whenever the loop returns with a history, that history extends the
history the loop was entered with: entries are only ever appended. -/
theorem loop_extends (model : Nat → List Msg → ModelResp) :
    ∀ (inputs : List (List Char)) (k : Nat) (h : List Msg) (mode : Mode)
      (t : Option (List Char)) (h2 : List Msg),
      loop model k h mode inputs = some (t, some h2) → ∃ ext, h2 = h ++ ext := by
  intro inputs
  induction inputs with
  | nil =>
      intro k h mode t h2 heq
      simp [loop] at heq
  | cons inp rest ih =>
      intro k h mode t h2 heq
      cases mode with
      | retryPrompt =>
          simp only [loop] at heq
          by_cases hr : lowerAll (strip inp) = "retry".toList
          · rw [if_pos hr] at heq
            exact ih _ _ _ _ _ heq
          · rw [if_neg hr] at heq
            simp at heq
      | reading =>
          simp only [loop] at heq
          by_cases h0 : strip inp = []
          · rw [if_pos h0] at heq
            exact ih _ _ _ _ _ heq
          · rw [if_neg h0] at heq
            by_cases h1 : lowerAll (strip inp) = "/skip".toList
            · rw [if_pos h1] at heq
              simp at heq
            · rw [if_neg h1] at heq
              by_cases h2i : lowerAll (strip inp) = "/image".toList
              · rw [if_pos h2i] at heq
                simp at heq
                exact ⟨[], by simp [heq.2]⟩
              · rw [if_neg h2i] at heq
                by_cases h3 : lowerAll (strip inp) = "/anki".toList
                · rw [if_pos h3] at heq
                  simp at heq
                  exact ⟨[], by simp [heq.2]⟩
                · rw [if_neg h3] at heq
                  cases hm : model k (h ++ [⟨Role.user, strip inp⟩]) with
                  | ok content =>
                      rw [hm] at heq
                      simp only at heq
                      by_cases hc : strip content = []
                      · rw [if_pos hc] at heq
                        obtain ⟨ext, hext⟩ := ih _ _ _ _ _ heq
                        exact ⟨[⟨Role.user, strip inp⟩] ++ ext, by
                          rw [hext, List.append_assoc]⟩
                      · rw [if_neg hc] at heq
                        obtain ⟨ext, hext⟩ := ih _ _ _ _ _ heq
                        exact ⟨[⟨Role.user, strip inp⟩]
                            ++ [⟨Role.assistant, strip content⟩] ++ ext, by
                          rw [hext]
                          simp [List.append_assoc]⟩
                  | err =>
                      rw [hm] at heq
                      obtain ⟨ext, hext⟩ := ih _ _ _ _ _ heq
                      exact ⟨[⟨Role.user, strip inp⟩] ++ ext, by
                        rw [hext, List.append_assoc]⟩

/-- Whenever `start_conversation` returns a history, it extends the initial
two-turn history (system instruction, then static invitation). -/
theorem start_conversation_extends (enabled : Bool)
    (model : Nat → List Msg → ModelResp) (s e : List Char)
    (inputs : List (List Char)) (t : Option (List Char)) (h2 : List Msg)
    (heq : start_conversation enabled model s e inputs = some (t, some h2)) :
    ∃ ext, h2 = initial_history s e ++ ext := by
  unfold start_conversation at heq
  cases enabled with
  | false =>
      simp at heq
      exact ⟨[], by simp [heq.2]⟩
  | true =>
      simp only [if_pos] at heq
      exact loop_extends model inputs 0 (initial_history s e) Mode.reading t h2 heq

/- ----------------------------------------------------------------------
Claim theorems.
---------------------------------------------------------------------- -/

/-- C1 counterexample: the highlighting of `main.py` line 184 uses Python
`str.replace`, which replaces every occurrence; on the sentence `猫猫`
with target word `猫` the produced example differs from the
first-occurrence-only replacement the claim states. -/
theorem highlighted_example_not_first_only :
    highlighted_example "猫猫".toList "猫".toList
      ≠ highlight_first_spec "猫猫".toList "猫".toList := by decide

/-- C1 (amended): if the target word is non-empty and a literal substring of
the sentence, the example is the sentence with every left-to-right
non-overlapping occurrence of the target word wrapped in the bold/red
markup — witnessed by the concrete two-occurrence sentence, and by the
general fact that a leading occurrence is always replaced; if the target
word is empty or not a verbatim substring, the example is the unmarked
sentence. For `猫が好きです` with target `猫` (a single occurrence) exactly
the first occurrence is highlighted and `が好きです` stays unmarked. -/
theorem highlighted_example_amended :
    (highlighted_example "猫が好きです".toList "猫".toList
        = red_markup "猫".toList ++ "が好きです".toList)
    ∧ (highlighted_example "猫猫".toList "猫".toList
        = red_markup "猫".toList ++ red_markup "猫".toList)
    ∧ (∀ p r s : List Char, p ≠ [] → replaceAll p r (p ++ s) = r ++ replaceAll p r s)
    ∧ (∀ jp tw : List Char, tw = [] ∨ containsSub tw jp = false →
        highlighted_example jp tw = jp) := by
  refine ⟨by decide, by decide, fun p r s hp => replaceAll_head p r s hp, ?_⟩
  intro jp tw h
  rcases h with rfl | hf
  · simp [highlighted_example]
  · simp [highlighted_example, hf]

theorem highlighted_example_amended_witness :
    highlighted_example "abc".toList [] = "abc".toList :=
  highlighted_example_amended.2.2.2 "abc".toList [] (Or.inl rfl)

/-- C2: the docstring of `start_conversation` (`ai_agent.py` lines 93-98)
documents exactly three return shapes — `("CREATE_CARD", history)`,
`("IMAGE_PROMPT", history)` and `(None, None)` — but in the configuration
with no language-model backend (line 113) the function returns
`(invite, history)` whose tag is the invitation text, a fourth shape.
This theorem evaluates the code at that failing configuration. -/
theorem offline_return_not_a_variant :
    start_conversation false (fun _ _ => ModelResp.err) "猫".toList [] []
        = some (some (invite_text "猫".toList), some (initial_history "猫".toList []))
    ∧ invite_text "猫".toList ≠ "CREATE_CARD".toList
    ∧ invite_text "猫".toList ≠ "IMAGE_PROMPT".toList
    ∧ (some (invite_text "猫".toList) : Option (List Char)) ≠ none :=
  ⟨rfl, by decide, by decide, by decide⟩

/-- C3: a user input whose stripped, lower-cased form is a recognized
command terminates the loop immediately: `/skip` yields `(None, None)`
(which the orchestrator maps to producing no card), `/image` yields the
`IMAGE_PROMPT` tag with the current history, `/anki` yields the
`CREATE_CARD` tag with the current history. The returned history is
exactly the history at entry (nothing is appended), and the result does
not depend on the model oracle or on any further input (no model call is
made): the oracle and the remaining input are universally quantified and
absent from the conclusion. -/
theorem commands_terminate_immediately :
    ∀ (model : Nat → List Msg → ModelResp) (k : Nat) (h : List Msg)
      (inp : List Char) (rest : List (List Char)),
      (lowerAll (strip inp) = "/skip".toList →
          loop model k h Mode.reading (inp :: rest) = some (none, none)
          ∧ flow_path (none, none) = FlowPath.noCard)
      ∧ (lowerAll (strip inp) = "/image".toList →
          loop model k h Mode.reading (inp :: rest)
            = some (some "IMAGE_PROMPT".toList, some h))
      ∧ (lowerAll (strip inp) = "/anki".toList →
          loop model k h Mode.reading (inp :: rest)
            = some (some "CREATE_CARD".toList, some h)) := by
  intro model k h inp rest
  refine ⟨fun hc => ?_, fun hc => ?_, fun hc => ?_⟩
  · have h0 : strip inp ≠ [] := by
      intro hnil; rw [hnil] at hc; exact absurd hc (by decide)
    refine ⟨?_, by decide⟩
    simp only [loop]
    rw [if_neg h0, if_pos hc]
  · have h0 : strip inp ≠ [] := by
      intro hnil; rw [hnil] at hc; exact absurd hc (by decide)
    have h1 : lowerAll (strip inp) ≠ "/skip".toList := by rw [hc]; decide
    simp only [loop]
    rw [if_neg h0, if_neg h1, if_pos hc]
  · have h0 : strip inp ≠ [] := by
      intro hnil; rw [hnil] at hc; exact absurd hc (by decide)
    have h1 : lowerAll (strip inp) ≠ "/skip".toList := by rw [hc]; decide
    have h2 : lowerAll (strip inp) ≠ "/image".toList := by rw [hc]; decide
    simp only [loop]
    rw [if_neg h0, if_neg h1, if_neg h2, if_pos hc]

theorem commands_terminate_immediately_witness :
    loop (fun _ _ => ModelResp.err) 0 [] Mode.reading ["/skip".toList]
        = some (none, none)
    ∧ flow_path (none, none) = FlowPath.noCard :=
  (commands_terminate_immediately (fun _ _ => ModelResp.err) 0 [] "/skip".toList []).1
    (by decide)

/-- C4: when the model call succeeds but the stripped response body is
empty (`ai_agent.py` lines 141-144), the loop reports the fault and
continues awaiting fresh input with the history extended only by the
already-appended user turn — no assistant turn is appended in response to
the empty body, and the conversation is not terminated by this fault. -/
theorem empty_response_reloops :
    ∀ (model : Nat → List Msg → ModelResp) (k : Nat) (h : List Msg)
      (inp : List Char) (rest : List (List Char)) (content : List Char),
      strip inp ≠ [] →
      lowerAll (strip inp) ≠ "/skip".toList →
      lowerAll (strip inp) ≠ "/image".toList →
      lowerAll (strip inp) ≠ "/anki".toList →
      model k (h ++ [⟨Role.user, strip inp⟩]) = ModelResp.ok content →
      strip content = [] →
      loop model k h Mode.reading (inp :: rest)
        = loop model (k + 1) (h ++ [⟨Role.user, strip inp⟩]) Mode.reading rest := by
  intro model k h inp rest content h0 h1 h2 h3 hm hc
  simp only [loop]
  rw [if_neg h0, if_neg h1, if_neg h2, if_neg h3, hm]
  simp only [if_pos hc]

theorem empty_response_reloops_witness :
    loop (fun _ _ => ModelResp.ok "  ".toList) 0 [] Mode.reading ["hello".toList]
      = loop (fun _ _ => ModelResp.ok "  ".toList) 1
          ([] ++ [⟨Role.user, strip "hello".toList⟩]) Mode.reading [] :=
  empty_response_reloops (fun _ _ => ModelResp.ok "  ".toList) 0 [] "hello".toList []
    "  ".toList (by decide) (by decide) (by decide) (by decide) rfl (by decide)

/-- C5: whenever a conversation returns a history, that history extends the
initial two-turn history — the loop only ever appends entries, never
mutates or removes them — and its first entry is the system-role
instruction while its second is the assistant-role static invitation. -/
theorem history_append_only :
    ∀ (enabled : Bool) (model : Nat → List Msg → ModelResp) (s e : List Char)
      (inputs : List (List Char)) (t : Option (List Char)) (h2 : List Msg),
      start_conversation enabled model s e inputs = some (t, some h2) →
      (∃ ext, h2 = initial_history s e ++ ext)
      ∧ h2[0]? = some ⟨Role.system, build_system_message s e⟩
      ∧ h2[1]? = some ⟨Role.assistant, invite_text s⟩ := by
  intro enabled model s e inputs t h2 heq
  obtain ⟨ext, hext⟩ := start_conversation_extends enabled model s e inputs t h2 heq
  subst hext
  refine ⟨⟨ext, rfl⟩, ?_, ?_⟩ <;> simp [initial_history]

theorem history_append_only_witness :
    (∃ ext, initial_history "a".toList "b".toList
        = initial_history "a".toList "b".toList ++ ext)
    ∧ (initial_history "a".toList "b".toList)[0]?
        = some ⟨Role.system, build_system_message "a".toList "b".toList⟩
    ∧ (initial_history "a".toList "b".toList)[1]?
        = some ⟨Role.assistant, invite_text "a".toList⟩ :=
  history_append_only false (fun _ _ => ModelResp.err) "a".toList "b".toList []
    (some (invite_text "a".toList)) (initial_history "a".toList "b".toList) rfl

/-- C6: when the model call raises (`ai_agent.py` lines 149-154), exactly
one further line of input decides the outcome: a line whose stripped,
lower-cased form is `retry` resumes the reading loop with the failed user
turn still appended as the last history entry (the same history tail is
retried), and any other line returns `(None, None)` — `Abandoned`. -/
theorem model_error_retry_once :
    ∀ (model : Nat → List Msg → ModelResp) (k : Nat) (h : List Msg)
      (inp r : List Char) (rest : List (List Char)),
      strip inp ≠ [] →
      lowerAll (strip inp) ≠ "/skip".toList →
      lowerAll (strip inp) ≠ "/image".toList →
      lowerAll (strip inp) ≠ "/anki".toList →
      model k (h ++ [⟨Role.user, strip inp⟩]) = ModelResp.err →
      loop model k h Mode.reading (inp :: r :: rest)
        = if lowerAll (strip r) = "retry".toList then
            loop model (k + 1) (h ++ [⟨Role.user, strip inp⟩]) Mode.reading rest
          else some (none, none) := by
  intro model k h inp r rest h0 h1 h2 h3 hm
  simp only [loop]
  rw [if_neg h0, if_neg h1, if_neg h2, if_neg h3, hm]

theorem model_error_retry_once_witness :
    loop (fun _ _ => ModelResp.err) 0 [] Mode.reading ["q".toList, "retry".toList]
      = if lowerAll (strip "retry".toList) = "retry".toList then
          loop (fun _ _ => ModelResp.err) 1
            ([] ++ [⟨Role.user, strip "q".toList⟩]) Mode.reading []
        else some (none, none) :=
  model_error_retry_once (fun _ _ => ModelResp.err) 0 [] "q".toList "retry".toList []
    (by decide) (by decide) (by decide) (by decide) rfl

/-- C7: with no language-model credential configured, `start_conversation`
returns immediately with a history of exactly the two static turns —
system instruction then templated assistant invitation — for every model
oracle (the oracle does not occur in the result: no model call is made);
and in every mode, whenever a history is returned, its second turn is the
static invitation templated from the sentence, never model-generated. -/
theorem offline_two_turn_history :
    ∀ (model : Nat → List Msg → ModelResp) (s e : List Char)
      (inputs : List (List Char)),
      start_conversation false model s e inputs
        = some (some (invite_text s), some (initial_history s e))
      ∧ (initial_history s e).length = 2
      ∧ (∀ (enabled : Bool) (t : Option (List Char)) (h2 : List Msg),
          start_conversation enabled model s e inputs = some (t, some h2) →
          h2[1]? = some ⟨Role.assistant, invite_text s⟩) := by
  intro model s e inputs
  refine ⟨rfl, rfl, ?_⟩
  intro enabled t h2 heq
  obtain ⟨ext, hext⟩ := start_conversation_extends enabled model s e inputs t h2 heq
  subst hext
  simp [initial_history]

theorem offline_two_turn_history_witness :
    (initial_history "c".toList "d".toList)[1]?
      = some ⟨Role.assistant, invite_text "c".toList⟩ :=
  (offline_two_turn_history (fun _ _ => ModelResp.err) "c".toList "d".toList []).2.2
    false (some (invite_text "c".toList)) (initial_history "c".toList "d".toList) rfl

/-- C10: for every sentence and known translation, the system instruction
placed as the first history entry contains the sentence verbatim, the
translation verbatim, and the rule text forbidding the assistant from
paraphrasing or substituting the provided translation. -/
theorem system_message_embeds_verbatim :
    ∀ (jp en : List Char),
      containsSub jp (build_system_message jp en) = true
      ∧ containsSub en (build_system_message jp en) = true
      ∧ containsSub NO_PARAPHRASE_RULE (build_system_message jp en) = true := by
  intro jp en
  refine ⟨?_, ?_, ?_⟩
  · exact containsSub_of_eq jp
      (SYSTEM_PROMPT_BASE ++ "\n\n".toList
        ++ "JAPANESE SENTENCE (DO NOT ALTER): ".toList)
      ("\n".toList ++ "ENGLISH SENTENCE (AUTHORITATIVE — DO NOT ALTER): ".toList
        ++ en ++ "\n\n".toList ++ INSTRUCTIONS_FOR_ASSISTANT)
      (by simp [build_system_message, List.append_assoc])
  · exact containsSub_of_eq en
      (SYSTEM_PROMPT_BASE ++ "\n\n".toList
        ++ "JAPANESE SENTENCE (DO NOT ALTER): ".toList ++ jp ++ "\n".toList
        ++ "ENGLISH SENTENCE (AUTHORITATIVE — DO NOT ALTER): ".toList)
      ("\n\n".toList ++ INSTRUCTIONS_FOR_ASSISTANT)
      (by simp [build_system_message, List.append_assoc])
  · exact containsSub_of_eq NO_PARAPHRASE_RULE
      (SP_LINE1 ++ SP_LINE2 ++ SP_LINE3)
      (SP_LINE5 ++ SP_LINE6 ++ SP_LINE7 ++ SP_LINE8 ++ SP_LINE9 ++ "\n\n".toList
        ++ "JAPANESE SENTENCE (DO NOT ALTER): ".toList ++ jp ++ "\n".toList
        ++ "ENGLISH SENTENCE (AUTHORITATIVE — DO NOT ALTER): ".toList ++ en
        ++ "\n\n".toList ++ INSTRUCTIONS_FOR_ASSISTANT)
      (by simp [build_system_message, SYSTEM_PROMPT_BASE, List.append_assoc])

/-- C8: at submission every slot of the assembled note is a defined string
(the `Fields` structure binds all eight slots totally, mirroring that the
Python dict binds every key to a `str`); when no image was found the
`Image` slot is the empty string and no upload call is attempted for it
(every attempted upload is the audio one); and each of the two media
slots is non-empty only when a filename was produced and its upload to
the sink succeeded. -/
theorem note_fields_media_invariants :
    ∀ (jp : List Char) (tw : Option (List Char)) (ew et : List Char)
      (imageF audioF : Option (List Char)) (ok : List Char → Bool),
      (media_upload (assembleFields jp tw ew et) none audioF ok).1.image = []
      ∧ (∀ c, c ∈ (media_upload (assembleFields jp tw ew et) none audioF ok).2 →
          audioF = some c)
      ∧ ((media_upload (assembleFields jp tw ew et) imageF audioF ok).1.image ≠ [] →
          ∃ i, imageF = some i ∧ ok i = true)
      ∧ ((media_upload (assembleFields jp tw ew et) imageF audioF ok).1.audioExample
            ≠ [] →
          ∃ a, audioF = some a ∧ ok a = true) := by
  intro jp tw ew et imageF audioF ok
  refine ⟨?_, ?_, ?_, ?_⟩
  · cases audioF with
    | none => rfl
    | some aud =>
        by_cases hok : ok aud
        · simp [media_upload, assembleFields, hok]
        · simp [media_upload, assembleFields, hok]
  · intro c hcmem
    cases audioF with
    | none => simp [media_upload] at hcmem
    | some aud =>
        simp [media_upload] at hcmem
        rw [hcmem]
  · intro hne
    cases imageF with
    | none =>
        exfalso
        apply hne
        cases audioF with
        | none => rfl
        | some aud =>
            by_cases hok : ok aud
            · simp [media_upload, assembleFields, hok]
            · simp [media_upload, assembleFields, hok]
    | some img =>
        by_cases hok : ok img
        · exact ⟨img, rfl, hok⟩
        · exfalso
          apply hne
          cases audioF with
          | none => simp [media_upload, assembleFields, hok]
          | some aud =>
              by_cases hok2 : ok aud
              · simp [media_upload, assembleFields, hok, hok2]
              · simp [media_upload, assembleFields, hok, hok2]
  · intro hne
    cases audioF with
    | none =>
        exfalso
        apply hne
        cases imageF with
        | none => rfl
        | some img =>
            by_cases hok : ok img
            · simp [media_upload, assembleFields, hok]
            · simp [media_upload, assembleFields, hok]
    | some aud =>
        by_cases hok : ok aud
        · exact ⟨aud, rfl, hok⟩
        · exfalso
          apply hne
          cases imageF with
          | none => simp [media_upload, assembleFields, hok]
          | some img =>
              by_cases hok2 : ok img
              · simp [media_upload, assembleFields, hok, hok2]
              · simp [media_upload, assembleFields, hok, hok2]

theorem note_fields_media_invariants_witness :
    ∃ i, (some "i.png".toList : Option (List Char)) = some i
      ∧ (fun (_ : List Char) => true) i = true :=
  (note_fields_media_invariants "猫".toList none [] [] (some "i.png".toList) none
      (fun _ => true)).2.2.1 (by decide)

/-- Helper for C9: a successful candidate scan returns the filename derived
from the SHA-1 digest of the chosen link and performed at least one
download attempt. -/
theorem sdLoop_success (sha1Fn : List Char → List Char) (dOk : List Char → Bool) :
    ∀ (items : List (Option (List Char))) (link fn : List Char) (n : Nat),
      sdLoop sha1Fn dOk items = (some (link, fn), n) →
      fn = img_filename sha1Fn link ∧ 1 ≤ n := by
  intro items
  induction items with
  | nil =>
      intro link fn n h
      simp [sdLoop] at h
  | cons it rest ih =>
      intro link fn n h
      cases it with
      | none => exact ih _ _ _ (by simpa [sdLoop] using h)
      | some l =>
          simp only [sdLoop] at h
          by_cases hl : l = []
          · rw [if_pos hl] at h
            exact ih _ _ _ h
          · rw [if_neg hl] at h
            by_cases hd : dOk l
            · rw [if_pos hd] at h
              simp only [Prod.mk.injEq, Option.some.injEq] at h
              obtain ⟨⟨hl2, hf⟩, hn⟩ := h
              subst hl2
              exact ⟨hf.symm, by omega⟩
            · rw [if_neg hd] at h
              simp only [Prod.mk.injEq] at h
              obtain ⟨h1, h2⟩ := h
              have hpair : sdLoop sha1Fn dOk rest
                  = (some (link, fn), (sdLoop sha1Fn dOk rest).2) := by
                rw [← h1]
              obtain ⟨hfn, hge⟩ := ih _ _ _ hpair
              exact ⟨hfn, by omega⟩

/-- C9 counterexample: `ImageFetcher.search_and_download` keeps no record of
previously produced local assets — `_download_image` performs the HTTP
request unconditionally, with no existence check on the target file — so
a repeat invocation with the same input (here: one valid candidate link,
after an identical earlier invocation has already produced the asset)
performs a download attempt again instead of reusing the asset. -/
theorem image_fetcher_redownloads :
    search_and_download (fun _ => "0123456789abcdef".toList)
        (fun _ => [some "u".toList]) (fun _ => true) true "q".toList
      = (some ("u".toList, "img_0123456789ab.png".toList), 1)
    ∧ (search_and_download (fun _ => "0123456789abcdef".toList)
        (fun _ => [some "u".toList]) (fun _ => true) true "q".toList).2 ≠ 0 := by
  exact ⟨by decide, by decide⟩

/-- C9 (amended): the audio provider is idempotent-by-content — its filename
is derived from `abs(hash(sentence))`, and once a call has produced a
filename, any repeat call on the same sentence (under any backend
availability) reuses the existing local asset with zero synthesis
attempts and an unchanged media folder. The image provider derives its
filename from a content identifier as well — the SHA-1 digest of the
downloaded URL — but performs at least one download on every successful
invocation rather than reusing a previously produced asset. -/
theorem media_provider_idempotence_amended :
    (∀ (hashFn : List Char → Int) (env env2 : AudioEnv) (fs : List (List Char))
        (s f : List Char) (fs2 : List (List Char)) (n : Nat),
        generate_audio hashFn env fs s = (some f, fs2, n) →
        f = safe_filename hashFn s
        ∧ generate_audio hashFn env2 fs2 s = (some f, fs2, 0))
    ∧ (∀ (sha1Fn : List Char → List Char)
        (searchFn : List Char → List (Option (List Char)))
        (dOk : List Char → Bool) (q link fn : List Char) (n : Nat),
        search_and_download sha1Fn searchFn dOk true q = (some (link, fn), n) →
        fn = img_filename sha1Fn link ∧ 1 ≤ n) := by
  constructor
  · intro hashFn env env2 fs s f fs2 n h
    simp only [generate_audio] at h ⊢
    by_cases hmem : safe_filename hashFn s ∈ fs
    · rw [if_pos hmem] at h
      simp only [Prod.mk.injEq, Option.some.injEq] at h
      obtain ⟨hf, hfs, _⟩ := h
      subst hf
      subst hfs
      exact ⟨rfl, by rw [if_pos hmem]⟩
    · rw [if_neg hmem] at h
      by_cases h1 : env.openai_available
      · rw [if_pos h1] at h
        by_cases h2 : env.openai_ok
        · rw [if_pos h2] at h
          simp only [Prod.mk.injEq, Option.some.injEq] at h
          obtain ⟨hf, hfs, _⟩ := h
          subst hf
          subst hfs
          exact ⟨rfl, by rw [if_pos (List.mem_cons_self _ _)]⟩
        · rw [if_neg h2] at h
          by_cases h3 : env.gtts_available
          · rw [if_pos h3] at h
            by_cases h4 : env.gtts_ok
            · rw [if_pos h4] at h
              simp only [Prod.mk.injEq, Option.some.injEq] at h
              obtain ⟨hf, hfs, _⟩ := h
              subst hf
              subst hfs
              exact ⟨rfl, by rw [if_pos (List.mem_cons_self _ _)]⟩
            · rw [if_neg h4] at h
              simp at h
          · rw [if_neg h3] at h
            simp at h
      · rw [if_neg h1] at h
        by_cases h3 : env.gtts_available
        · rw [if_pos h3] at h
          by_cases h4 : env.gtts_ok
          · rw [if_pos h4] at h
            simp only [Prod.mk.injEq, Option.some.injEq] at h
            obtain ⟨hf, hfs, _⟩ := h
            subst hf
            subst hfs
            exact ⟨rfl, by rw [if_pos (List.mem_cons_self _ _)]⟩
          · rw [if_neg h4] at h
            simp at h
        · rw [if_neg h3] at h
          simp at h
  · intro sha1Fn searchFn dOk q link fn n h
    simp only [search_and_download, if_pos] at h
    exact sdLoop_success sha1Fn dOk (searchFn q) link fn n h

theorem media_provider_idempotence_witness :
    ("audio_5.mp3".toList = safe_filename (fun _ => (5 : Int)) "a".toList)
    ∧ generate_audio (fun _ => (5 : Int)) ⟨true, true, true, true⟩
        ["audio_5.mp3".toList] "a".toList
      = (some "audio_5.mp3".toList, ["audio_5.mp3".toList], 0) :=
  media_provider_idempotence_amended.1 (fun _ => (5 : Int)) ⟨false, false, true, true⟩
    ⟨true, true, true, true⟩ [] "a".toList "audio_5.mp3".toList
    ["audio_5.mp3".toList] 1 (by decide)

end WaniKani
